import Mathlib

/-!
Verification of the rePatcher-to-OSC bridge (`repatcher_osc.py`).

The decoder core is embedded shallowly:

* `Scaler` mirrors the Python class `Scaler`: the constructor stores
  `srcBeg`, `dstBeg`, `srcRng = src[1] - src[0]`, `dstRng = dst[1] - dst[0]`,
  and `__call__` computes `((val - srcBeg) / srcRng) * dstRng + dstBeg`.
  Python float division by a zero `srcRng` raises `ZeroDivisionError`;
  the embedding returns `none` in that case.  Arithmetic is modelled over
  `ℚ` (the values actually used, multiples of powers of two, are exact in
  binary floating point as well).
* A frame buffer is a byte function `ℕ → ℕ`; only indices 0..17 are ever
  read, matching the 18-byte `bytearray` produced by `ser.read(18)`.
* Sink calls (`sender.send_knob` / `sender.send_patch_bay`) are reified as
  an emitted list of `Event`s, in call order.
-/

/-- One sink call of `RepatcherReader`: either `send_knob(knob_num, knob_val)`
or `send_patch_bay(out_pin, values)`.  A knob value is `none` when the scaler
would raise `ZeroDivisionError`. -/
inductive Event where
  | knob (knob_num : ℕ) (knob_val : Option ℚ)
  | patch_bay (out_pin : ℕ) (values : List ℕ)
deriving DecidableEq

/-- The `Scaler` object: fields as stored by `Scaler.__init__`. -/
structure Scaler where
  srcBeg : ℚ
  dstBeg : ℚ
  srcRng : ℚ
  dstRng : ℚ
deriving DecidableEq

/-- `Scaler.__init__(self, src, dst)`: stores `src[0]`, `dst[0]`,
`src[1] - src[0]` and `dst[1] - dst[0]`. -/
def Scaler.init (src dst : ℚ × ℚ) : Scaler :=
  { srcBeg := src.1
    dstBeg := dst.1
    srcRng := src.2 - src.1
    dstRng := dst.2 - dst.1 }

/-- `Scaler.__call__(self, val)`: `((val - srcBeg) / srcRng) * dstRng + dstBeg`.
Division by a zero `srcRng` raises `ZeroDivisionError` in Python, modelled as
`none`. -/
def Scaler.call (s : Scaler) (val : ℚ) : Option ℚ :=
  if s.srcRng = 0 then none
  else some (((val - s.srcBeg) / s.srcRng) * s.dstRng + s.dstBeg)

/-- The single scaler instance built in `RepatcherReader.__init__`:
`Scaler((0.0, 1024.0), (0.0, 1.0))`. -/
def repatcherScaler : Scaler :=
  Scaler.init (0, 1024) (0, 1)

/-- The mask list `[32, 16, 8, 4, 2, 1]` from `_read_patch_bay`. -/
def bayMasks : List ℕ :=
  [32, 16, 8, 4, 2, 1]

/-- The list comprehension in `_read_patch_bay`:
`[1 if (b & j) == j else 0 for j in [32, 16, 8, 4, 2, 1]]`. -/
def rowFlags (b : ℕ) : List ℕ :=
  bayMasks.map (fun j => if b &&& j = j then 1 else 0)

/-- `RepatcherReader._read_patch_bay(self, buffer)`: for `i in range(12, 18)`
emit `send_patch_bay(int(5 - (i - 12)), values)` where `values` are the six
bit flags of `buffer[i]`. -/
def readPatchBay (buffer : ℕ → ℕ) : List Event :=
  (List.range' 12 6).map (fun i =>
    Event.patch_bay (5 - (i - 12)) (rowFlags (buffer i)))

/-- `RepatcherReader._read_knobs(self, buffer)`: for `i in range(0, 12, 2)`
emit `send_knob(int(5 - (i / 2)), scaler((buffer[i+1] << 7) | buffer[i]))`. -/
def readKnobs (scaler : Scaler) (buffer : ℕ → ℕ) : List Event :=
  (List.range' 0 6 2).map (fun i =>
    Event.knob (5 - i / 2)
      (scaler.call ((buffer (i + 1) <<< 7 ||| buffer i : ℕ) : ℚ)))

/-- The per-frame body of `RepatcherReader.read`: `_read_knobs(buffer)` then
`_read_patch_bay(buffer)`; the emitted events, in call order. -/
def decodeFrame (scaler : Scaler) (buffer : ℕ → ℕ) : List Event :=
  readKnobs scaler buffer ++ readPatchBay buffer

/-- The frame-acquisition loop of `RepatcherReader.read`, sliced at the first
frame: scan the stream byte by byte (`ser.read(1)`); on the marker byte
`MESSAGE_BUFFER_START = 0xC0` take the next `BUFFER_LEN = 18` bytes as the
frame body.  A stream that ends before a full frame is available (where the
Python blocking read would wait forever) yields `none`. -/
def findFrame : List ℕ → Option (List ℕ)
  | [] => none
  | b :: rest =>
    if b = 0xC0 then
      if 18 ≤ rest.length then some (rest.take 18) else none
    else findFrame rest

/-- View an 18-byte frame body as a buffer function (index into the
`bytearray`; only indices 0..17 are ever used). -/
def bufferOf (body : List ℕ) : ℕ → ℕ :=
  fun i => body.getD i 0

/-- Acquire and decode the first frame of a byte stream, as
`RepatcherReader.read` does on its first complete iteration. -/
def decodeFirst (stream : List ℕ) : Option (List Event) :=
  (findFrame stream).map (fun body => decodeFrame repatcherScaler (bufferOf body))

example : rowFlags 32 = [1, 0, 0, 0, 0, 0] := by decide
example : rowFlags 63 = [1, 1, 1, 1, 1, 1] := by decide
example : repatcherScaler.call 512 = some (1 / 2) := by
  simp [repatcherScaler, Scaler.init, Scaler.call]
  norm_num

/-- C1: for every frame buffer and byte-pair index `i ∈ {0,2,4,6,8,10}`, the
knob decode emits, at position `i / 2` of its call sequence, a `send_knob`
call for `knob_id = 5 - i/2` whose value is the raw word
`(buffer[i+1] << 7) | buffer[i]` passed through the scaler; offset 0 thus
produces knob 5 and offset 10 produces knob 0. -/
theorem readKnobs_pair (s : Scaler) (buffer : ℕ → ℕ) (i : ℕ)
    (h : i ∈ ([0, 2, 4, 6, 8, 10] : List ℕ)) :
    (readKnobs s buffer).get? (i / 2) =
      some (Event.knob (5 - i / 2)
        (s.call ((buffer (i + 1) <<< 7 ||| buffer i : ℕ) : ℚ))) := by
  fin_cases h <;> rfl

theorem readKnobs_pair_witness :
    (readKnobs repatcherScaler (fun _ => 0)).get? 0 =
      some (Event.knob 5 (repatcherScaler.call 0)) := by
  have h := readKnobs_pair repatcherScaler (fun _ => 0) 0 (by decide)
  simpa using h

/-- C2: for every frame buffer and byte index `i ∈ {12,...,17}`, the patch-bay
decode emits, at position `i - 12` of its call sequence, a `send_patch_bay`
call for `output_id = 5 - (i - 12)` (so offset 12 gives output 5 and offset 17
gives output 0) whose connections list has exactly 6 flags, the `k`-th flag
being 1 iff `buffer[i] & mask = mask` for the `k`-th mask of `[32,16,8,4,2,1]`;
row bytes 32, 1 and 63 give `[1,0,0,0,0,0]`, `[0,0,0,0,0,1]`, `[1,1,1,1,1,1]`. -/
theorem readPatchBay_row (buffer : ℕ → ℕ) (i : ℕ)
    (h : i ∈ ([12, 13, 14, 15, 16, 17] : List ℕ)) :
    (readPatchBay buffer).get? (i - 12) =
      some (Event.patch_bay (5 - (i - 12)) (rowFlags (buffer i)))
    ∧ (rowFlags (buffer i)).length = 6
    ∧ (∀ k, k < 6 → (rowFlags (buffer i)).get? k =
        some (if buffer i &&& bayMasks.getD k 0 = bayMasks.getD k 0 then 1 else 0))
    ∧ rowFlags 32 = [1, 0, 0, 0, 0, 0]
    ∧ rowFlags 1 = [0, 0, 0, 0, 0, 1]
    ∧ rowFlags 63 = [1, 1, 1, 1, 1, 1] := by
  refine ⟨?_, rfl, ?_, by decide, by decide, by decide⟩
  · fin_cases h <;> rfl
  · intro k hk
    interval_cases k <;> rfl

theorem readPatchBay_row_witness :
    (readPatchBay (fun _ => 63)).get? 0 =
      some (Event.patch_bay 5 (rowFlags 63))
    ∧ (rowFlags 63).length = 6 := by
  have h := readPatchBay_row (fun _ => 63) 12 (by decide)
  exact ⟨h.1, h.2.1⟩

/-- C3: for every frame buffer, the decode makes exactly 12 sink calls in the
fixed order knob5, knob4, knob3, knob2, knob1, knob0, then bay5, bay4, bay3,
bay2, bay1, bay0. -/
theorem decodeFrame_order (s : Scaler) (b : ℕ → ℕ) :
    ∃ v5 v4 v3 v2 v1 v0 c5 c4 c3 c2 c1 c0,
      decodeFrame s b =
        [Event.knob 5 v5, Event.knob 4 v4, Event.knob 3 v3,
         Event.knob 2 v2, Event.knob 1 v1, Event.knob 0 v0,
         Event.patch_bay 5 c5, Event.patch_bay 4 c4, Event.patch_bay 3 c3,
         Event.patch_bay 2 c2, Event.patch_bay 1 c1, Event.patch_bay 0 c0] := by
  exact ⟨_, _, _, _, _, _, _, _, _, _, _, _, rfl⟩

/-- C4: stray non-marker bytes before the marker `0xC0` are skipped one byte
at a time; on the marker, exactly the next 18 bytes (marker excluded) form the
frame body, and that frame is decoded with correct alignment. -/
theorem findFrame_resync (junk frame : List ℕ)
    (hj : ∀ b ∈ junk, b ≠ 0xC0) (hf : frame.length = 18) :
    findFrame (junk ++ 0xC0 :: frame) = some frame
    ∧ decodeFirst (junk ++ 0xC0 :: frame) =
        some (decodeFrame repatcherScaler (bufferOf frame)) := by
  have hfind : findFrame (junk ++ 0xC0 :: frame) = some frame := by
    induction junk with
    | nil =>
      simp [findFrame, hf.ge, List.take_of_length_le hf.le]
    | cons b rest ih =>
      have hb : b ≠ 0xC0 := hj b (List.mem_cons_self b rest)
      have hrest : ∀ x ∈ rest, x ≠ 0xC0 := fun x hx => hj x (List.mem_cons_of_mem b hx)
      simpa [findFrame, hb] using ih hrest
  exact ⟨hfind, by simp [decodeFirst, hfind]⟩

theorem findFrame_resync_witness :
    findFrame ([1, 2, 3] ++ 0xC0 :: List.replicate 18 0) = some (List.replicate 18 0)
    ∧ decodeFirst ([1, 2, 3] ++ 0xC0 :: List.replicate 18 0) =
        some (decodeFrame repatcherScaler (bufferOf (List.replicate 18 0))) :=
  findFrame_resync [1, 2, 3] (List.replicate 18 0) (by decide) (by simp)

/-- C5: a scaler constructed from source interval `(srcBeg, srcEnd)` with
`srcEnd ≠ srcBeg` and destination interval `(dstBeg, dstEnd)` computes
`scale(v) = ((v - srcBeg) / (srcEnd - srcBeg)) * (dstEnd - dstBeg) + dstBeg`
for every input `v`. -/
theorem scaler_formula (srcBeg srcEnd dstBeg dstEnd v : ℚ)
    (h : srcEnd ≠ srcBeg) :
    (Scaler.init (srcBeg, srcEnd) (dstBeg, dstEnd)).call v =
      some (((v - srcBeg) / (srcEnd - srcBeg)) * (dstEnd - dstBeg) + dstBeg) := by
  have hne : srcEnd - srcBeg ≠ 0 := sub_ne_zero.mpr h
  simp [Scaler.init, Scaler.call, hne]

theorem scaler_formula_witness :
    (Scaler.init (0, 2) (10, 20)).call 1 =
      some (((1 - 0) / (2 - 0)) * (20 - 10) + 10) :=
  scaler_formula 0 2 10 20 1 (by norm_num)

/-- C6: the process scaler (source 0.0–1024.0, destination 0.0–1.0) sends 0 to
0, 1024 to 1, and every raw knob word `w ≤ 1024` to exactly `w / 1024`
(exact rational arithmetic). -/
theorem repatcherScaler_exact (w : ℕ) (_h : w ≤ 1024) :
    repatcherScaler.call 0 = some 0
    ∧ repatcherScaler.call 1024 = some 1
    ∧ repatcherScaler.call (w : ℚ) = some ((w : ℚ) / 1024) := by
  refine ⟨?_, ?_, ?_⟩ <;> norm_num [repatcherScaler, Scaler.init, Scaler.call]

theorem repatcherScaler_exact_witness :
    repatcherScaler.call 0 = some 0
    ∧ repatcherScaler.call 1024 = some 1
    ∧ repatcherScaler.call (512 : ℕ) = some ((512 : ℕ) / 1024 : ℚ) :=
  repatcherScaler_exact 512 (by norm_num)

/-- C7 counterexample: constructing `Scaler` with the degenerate source range
`(0.0, 0.0)` does not fail — it succeeds and returns an ordinary object with
`srcRng = 0` — and the division failure instead occurs later, at each
individual `scale` call. -/
theorem scaler_degenerate_counterexample :
    Scaler.init (0, 0) (0, 1) = { srcBeg := 0, dstBeg := 0, srcRng := 0, dstRng := 1 }
    ∧ (Scaler.init (0, 0) (0, 1)).call 5 = none
    ∧ (Scaler.init (0, 0) (0, 1)).call 7 = none := by
  refine ⟨?_, ?_, ?_⟩ <;> norm_num [Scaler.init, Scaler.call]

/-- C7 amended: constructing a `Scaler` with a degenerate source range
(`srcBeg == srcEnd`) succeeds — `__init__` performs no validation and merely
stores `srcRng = 0` — and every subsequent `scale` call then fails with a
division-by-zero error (per-sample, not at construction). -/
theorem scaler_degenerate_defers (srcBeg dstBeg dstEnd v : ℚ) :
    (Scaler.init (srcBeg, srcBeg) (dstBeg, dstEnd)).srcRng = 0
    ∧ (Scaler.init (srcBeg, srcBeg) (dstBeg, dstEnd)).call v = none := by
  constructor <;> simp [Scaler.init, Scaler.call]

/-- Strictly outside the closed interval spanned by `a` and `b`. -/
def outsideInterval (a b x : ℚ) : Prop :=
  x < min a b ∨ max a b < x

/-- Helper: the `Scaler` built from intervals computes the affine formula when
the source width is nonzero. -/
theorem Scaler.init_call (srcBeg srcEnd dstBeg dstEnd v : ℚ)
    (h : srcEnd - srcBeg ≠ 0) :
    (Scaler.init (srcBeg, srcEnd) (dstBeg, dstEnd)).call v =
      some (((v - srcBeg) / (srcEnd - srcBeg)) * (dstEnd - dstBeg) + dstBeg) := by
  simp [Scaler.init, Scaler.call, h]

/-- C8 counterexample: the claim quantifies over every scaler with a
non-degenerate source range, but for the scaler `(0,1) → (0,0)` (degenerate
destination) every output equals 0, which lies inside `[0, 0]`; no input at
all has an output outside the destination interval. -/
theorem scaler_noclamp_counterexample :
    (0 : ℚ) ≠ 1
    ∧ ¬ ∃ v y : ℚ, outsideInterval 0 1 v
        ∧ (Scaler.init (0, 1) (0, 0)).call v = some y
        ∧ outsideInterval 0 0 y := by
  refine ⟨by norm_num, ?_⟩
  rintro ⟨v, y, -, hy, hout⟩
  rw [Scaler.init_call 0 1 0 0 v (by norm_num)] at hy
  have : y = 0 := by
    have := hy.symm
    simp at this
    linarith [this]
  subst this
  simp [outsideInterval] at hout

/-- C8 amended: for every scaler whose source range AND destination range are
both non-degenerate, some input outside the source interval scales to an
output outside the destination interval (no clamping); moreover for the
process configuration 0.0–1024.0 → 0.0–1.0, every input above 1024 scales
above 1 and every negative input scales below 0 (linear extrapolation). -/
theorem scaler_noclamp (srcBeg srcEnd dstBeg dstEnd : ℚ)
    (hs : srcEnd ≠ srcBeg) (hd : dstEnd ≠ dstBeg) :
    (∃ v y : ℚ, outsideInterval srcBeg srcEnd v
      ∧ (Scaler.init (srcBeg, srcEnd) (dstBeg, dstEnd)).call v = some y
      ∧ outsideInterval dstBeg dstEnd y)
    ∧ (∀ v : ℚ, 1024 < v → ∃ y, repatcherScaler.call v = some y ∧ 1 < y)
    ∧ (∀ v : ℚ, v < 0 → ∃ y, repatcherScaler.call v = some y ∧ y < 0) := by
  have hs0 : srcEnd - srcBeg ≠ 0 := sub_ne_zero.mpr hs
  refine ⟨?_, ?_, ?_⟩
  · refine ⟨srcBeg + 2 * (srcEnd - srcBeg), 2 * dstEnd - dstBeg, ?_, ?_, ?_⟩
    · rcases hs0.lt_or_lt with h1 | h1
      · exact Or.inl (by rw [min_eq_right (by linarith : srcEnd ≤ srcBeg)]; linarith)
      · exact Or.inr (by rw [max_eq_right (by linarith : srcBeg ≤ srcEnd)]; linarith)
    · rw [Scaler.init_call srcBeg srcEnd dstBeg dstEnd _ hs0]
      congr 1
      field_simp
      ring
    · rcases (sub_ne_zero.mpr hd).lt_or_lt with h1 | h1
      · exact Or.inl (by rw [min_eq_right (by linarith : dstEnd ≤ dstBeg)]; linarith)
      · exact Or.inr (by rw [max_eq_right (by linarith : dstBeg ≤ dstEnd)]; linarith)
  · intro v hv
    rw [show repatcherScaler = Scaler.init (0, 1024) (0, 1) from rfl,
      Scaler.init_call 0 1024 0 1 v (by norm_num)]
    refine ⟨_, rfl, ?_⟩
    have he : ((v - 0) / (1024 - 0)) * (1 - 0) + 0 = v / 1024 := by ring
    rw [he]
    rw [lt_div_iff₀ (by norm_num : (0 : ℚ) < 1024)]
    linarith
  · intro v hv
    rw [show repatcherScaler = Scaler.init (0, 1024) (0, 1) from rfl,
      Scaler.init_call 0 1024 0 1 v (by norm_num)]
    refine ⟨_, rfl, ?_⟩
    have he : ((v - 0) / (1024 - 0)) * (1 - 0) + 0 = v / 1024 := by ring
    rw [he]
    exact div_neg_of_neg_of_pos hv (by norm_num)

theorem scaler_noclamp_witness :
    (∃ v y : ℚ, outsideInterval 0 1024 v
      ∧ (Scaler.init (0, 1024) (0, 1)).call v = some y
      ∧ outsideInterval 0 1 y)
    ∧ (∀ v : ℚ, 1024 < v → ∃ y, repatcherScaler.call v = some y ∧ 1 < y)
    ∧ (∀ v : ℚ, v < 0 → ∃ y, repatcherScaler.call v = some y ∧ y < 0) :=
  scaler_noclamp 0 1024 0 1 (by norm_num) (by norm_num)

/-- C9: frame decoding depends only on the 18 frame bytes — two buffers that
agree on indices 0..17 decode to the same 12 readings, in the same order; in
particular two decoding runs on the same frame are identical. -/
theorem decodeFrame_deterministic (s : Scaler) (b1 b2 : ℕ → ℕ)
    (h : ∀ i, i < 18 → b1 i = b2 i) :
    decodeFrame s b1 = decodeFrame s b2 := by
  simp only [decodeFrame, readKnobs, readPatchBay,
    show List.range' 0 6 2 = [0, 2, 4, 6, 8, 10] from rfl,
    show List.range' 12 6 = [12, 13, 14, 15, 16, 17] from rfl,
    List.map_cons, List.map_nil]
  rw [h 0 (by norm_num), h 1 (by norm_num), h 2 (by norm_num), h 3 (by norm_num),
    h 4 (by norm_num), h 5 (by norm_num), h 6 (by norm_num), h 7 (by norm_num),
    h 8 (by norm_num), h 9 (by norm_num), h 10 (by norm_num), h 11 (by norm_num),
    h 12 (by norm_num), h 13 (by norm_num), h 14 (by norm_num), h 15 (by norm_num),
    h 16 (by norm_num), h 17 (by norm_num)]

theorem decodeFrame_deterministic_witness :
    decodeFrame repatcherScaler (fun _ => 0) =
      decodeFrame repatcherScaler (fun i => if i < 18 then 0 else 1) :=
  decodeFrame_deterministic repatcherScaler _ _ (by intro i hi; simp [hi])

/-- C10: a patch-bay row byte decodes exactly as its six low bits do — the
flags of `b` and of `b &&& 0x3F` coincide (bits 6 and 7 are ignored) — and the
decoded list always has exactly 6 entries, each 0 or 1. -/
theorem rowFlags_mask (b : ℕ) (_h : b ≤ 255) :
    rowFlags b = rowFlags (b &&& 63)
    ∧ (rowFlags b).length = 6
    ∧ ∀ x ∈ rowFlags b, x = 0 ∨ x = 1 := by
  have h32 : b &&& 63 &&& 32 = b &&& 32 := by
    rw [Nat.and_assoc, (by decide : (63 &&& 32 : ℕ) = 32)]
  have h16 : b &&& 63 &&& 16 = b &&& 16 := by
    rw [Nat.and_assoc, (by decide : (63 &&& 16 : ℕ) = 16)]
  have h8 : b &&& 63 &&& 8 = b &&& 8 := by
    rw [Nat.and_assoc, (by decide : (63 &&& 8 : ℕ) = 8)]
  have h4 : b &&& 63 &&& 4 = b &&& 4 := by
    rw [Nat.and_assoc, (by decide : (63 &&& 4 : ℕ) = 4)]
  have h2 : b &&& 63 &&& 2 = b &&& 2 := by
    rw [Nat.and_assoc, (by decide : (63 &&& 2 : ℕ) = 2)]
  have h1 : b &&& 63 &&& 1 = b &&& 1 := by
    rw [Nat.and_assoc, (by decide : (63 &&& 1 : ℕ) = 1)]
  refine ⟨?_, rfl, ?_⟩
  · simp only [rowFlags, bayMasks, List.map_cons, List.map_nil, h32, h16, h8, h4, h2, h1]
  · intro x hx
    simp only [rowFlags, bayMasks, List.map_cons, List.map_nil, List.mem_cons,
      List.not_mem_nil, or_false] at hx
    rcases hx with h | h | h | h | h | h <;> subst h <;> split_ifs <;> simp

theorem rowFlags_mask_witness :
    rowFlags 255 = rowFlags (255 &&& 63)
    ∧ (rowFlags 255).length = 6
    ∧ ∀ x ∈ rowFlags 255, x = 0 ∨ x = 1 :=
  rowFlags_mask 255 (by norm_num)
